import Mathlib

deriving instance DecidableEq for Except

/-!
Shallow embedding of the Learn Anything API core (server.js together with
src/schema.sql): the catalog-consistency and progress-advancement engine.

The relational store (Postgres) is modelled as lists of rows; `gen_random_uuid()`
defaults are modelled as a deterministic fresh-id supply (`nextId`); timestamps
(`created_at`, `last_seen`) are not modelled, as no verified property mentions
time.  Every operation returns the store alongside an `Except` outcome: a query
that throws leaves committed prior statements in place (the server uses
autocommit per statement everywhere except the explicit transaction in
seed-lessons).
-/

namespace LearnAnything

/-- Outcomes an HTTP handler of server.js can produce, plus the spec's
`InvalidIdentifier` from the error taxonomy of spec section 7 (the code itself
never constructs it; see the C10 theorems). -/
inductive ApiError where
  /-- a zod `safeParse` failure, returned as HTTP 400 with the flattened error -/
  | invalidPayload
  /-- an explicit 400 with a message (e.g. "Missing ?track=slug", "Unable to ensure track.") -/
  | badRequest (msg : String)
  /-- an explicit 404 with a message ("Track not found" / "Lesson not found") -/
  | notFound (msg : String)
  /-- Modelled from the spec: the typed malformed-learner-id error of the spec's
  error taxonomy; no handler in server.js produces it -/
  | invalidIdentifier
  /-- a database exception thrown on a path with no try/catch handler -/
  | unhandledDb (msg : String)
deriving Repr, DecidableEq

inductive TrackType where
  | official
  | custom
deriving Repr, DecidableEq

inductive TrackStatus where
  | draft
  | active
  | archived
deriving Repr, DecidableEq

inductive AttemptType where
  | quiz
  | challenge
  | project
deriving Repr, DecidableEq

/-- A row of the `tracks` table (schema.sql). -/
structure Track where
  id : String
  slug : String
  title : String
  official_sources : List String
  track_type : TrackType
  owner_user_id : Option String
  status : TrackStatus
deriving Repr, DecidableEq

/-- A row of the `lessons` table (schema.sql). -/
structure Lesson where
  id : String
  track_id : String
  lesson_order : Int
  title : String
  objectives : List String
  tags : List String
  source_urls : List String
deriving Repr, DecidableEq

/-- A row of the `attempts` table (schema.sql).  `score` and `max_score` are
NUMERIC; they are modelled as exact rationals. -/
structure Attempt where
  id : String
  user_id : String
  lesson_id : String
  attempt_type : AttemptType
  score : Option ℚ
  max_score : Option ℚ
  duration_sec : Option Int
  weak_tags : List String
deriving Repr, DecidableEq

/-- A row of the `user_track_state` table (schema.sql); the per-(learner, track)
progress cursor.  `last_seen` is not modelled. -/
structure ProgressRow where
  user_id : String
  track_id : String
  current_lesson_order : Int
deriving Repr, DecidableEq

/-- The relational store: `users` holds the ids of the `users` table rows
(the table has no other modelled column); `nextId` is the deterministic
stand-in for `gen_random_uuid()`. -/
structure Store where
  users : List String
  tracks : List Track
  lessons : List Lesson
  attempts : List Attempt
  progress : List ProgressRow
  nextId : Nat
deriving Repr, DecidableEq

/-- Hex digit for the fresh-id supply. -/
def hexChar (n : Nat) : Char :=
  if n < 10 then Char.ofNat (48 + n) else Char.ofNat (87 + n)

/-- Twelve-hex-digit rendering of a Nat (low 48 bits). -/
def hex12 (n : Nat) : String :=
  String.mk (((List.range 12).reverse).map (fun i => hexChar (n / 16 ^ i % 16)))

/-- Deterministic model of `gen_random_uuid()`: the n-th generated identifier. -/
def genUuid (n : Nat) : String :=
  "00000000-0000-4000-8000-" ++ hex12 n

def isHexDigit (c : Char) : Bool :=
  c.isDigit || ('a' ≤ c && c ≤ 'f') || ('A' ≤ c && c ≤ 'F')

/-- Modelled from the spec: a "syntactically valid 128-bit identifier" in the
canonical 8-4-4-4-12 hyphenated hex form.  The source delegates identifier
syntax to zod's `.uuid()` and to Postgres's `uuid` input parser, whose accepted
grammars differ slightly at the margins; every concrete input used in the
theorems below is one on which all three agree. -/
def isValidUuid (s : String) : Bool :=
  let cs := s.toList
  cs.length = 36 &&
    (List.range 36).all (fun i =>
      if i = 8 || i = 13 || i = 18 || i = 23 then cs.getD i ' ' = '-'
      else isHexDigit (cs.getD i ' '))

/-- JavaScript's `String.prototype.toLowerCase()` as used on slugs and query
parameters: lowercase every character (character-by-character map, written
structurally so that it evaluates; it agrees with `String.toLower`). -/
def jsToLower (s : String) : String :=
  String.mk (s.data.map Char.toLower)

/-- Approximation of zod's `.url()` check (an http(s) scheme), sufficient
here: no verified property depends on the exact URL grammar boundary. -/
def isValidUrl (s : String) : Bool :=
  s.data.take 7 = "http://".data || s.data.take 8 = "https://".data

/-- helper `ensureUser` of server.js.  `none` models an absent `user_id`; the
empty string is falsy in JavaScript, so it also takes the create-new path.  A
present, malformed identifier makes the `SELECT ... WHERE id = $1` throw
(`invalid input syntax for type uuid`) before any insert; there is no handler. -/
def ensureUser (s : Store) (cand : Option String) : Store × Except ApiError String :=
  match cand with
  | none =>
      ({ s with users := s.users ++ [genUuid s.nextId], nextId := s.nextId + 1 },
       .ok (genUuid s.nextId))
  | some uid =>
      if uid = "" then
        ({ s with users := s.users ++ [genUuid s.nextId], nextId := s.nextId + 1 },
         .ok (genUuid s.nextId))
      else if !isValidUuid uid then
        (s, .error (.unhandledDb "invalid input syntax for type uuid"))
      else if s.users.contains uid then (s, .ok uid)
      else ({ s with users := s.users ++ [uid] }, .ok uid)

/-- helper `getTrackBySlug` of server.js: first `tracks` row with the slug. -/
def getTrackBySlug (s : Store) (slug : String) : Option Track :=
  s.tracks.find? (fun t => t.slug = slug)

/-- `SELECT ... FROM lessons WHERE id = $1`: first `lessons` row with the id. -/
def lessonById (s : Store) (id : String) : Option Lesson :=
  s.lessons.find? (fun l => l.id = id)

/-- `SELECT ... FROM lessons WHERE track_id = $1 AND lesson_order = $2`. -/
def lessonAt (s : Store) (tid : String) (ord : Int) : Option Lesson :=
  s.lessons.find? (fun l => l.track_id = tid && l.lesson_order = ord)

def findRow (rows : List ProgressRow) (uid tid : String) : Option ProgressRow :=
  rows.find? (fun r => r.user_id = uid && r.track_id = tid)

/-- The learner's stored cursor for a track, if a state row exists. -/
def cursorOf (s : Store) (uid tid : String) : Option Int :=
  (findRow s.progress uid tid).map (fun r => r.current_lesson_order)

/-- The `UPDATE user_track_state SET current_lesson_order =
GREATEST(current_lesson_order, $3) WHERE user_id = $1 AND track_id = $2` of
POST /v1/attempts, at the row level: an UPDATE touches every matching row and
inserts nothing. -/
def advanceRows (rows : List ProgressRow) (uid tid : String) (n : Int) : List ProgressRow :=
  rows.map (fun r =>
    if r.user_id = uid && r.track_id = tid then
      { r with current_lesson_order := max r.current_lesson_order n }
    else r)

def advanceState (s : Store) (uid tid : String) (n : Int) : Store :=
  { s with progress := advanceRows s.progress uid tid n }

/-- The `INSERT INTO user_track_state ... ON CONFLICT (user_id, track_id) DO
UPDATE SET last_seen = now()` of GET /v1/lessons/next: creates the state row at
the `current_lesson_order` column default 1 when absent; otherwise only touches
`last_seen` (not modelled). -/
def ensureTrackState (s : Store) (uid tid : String) : Store :=
  match findRow s.progress uid tid with
  | some _ => s
  | none => { s with progress := s.progress ++ [⟨uid, tid, 1⟩] }

-- ---------- POST /v1/internal/ensure-track ----------

/-- The zod-parsed body of POST /v1/internal/ensure-track.  An outer `none`
models a field absent from the request (zod `.optional()` output omits absent
keys, and the handler tests presence with `hasOwnProperty`); for
`owner_user_id`, `some none` models a field present with value `null`. -/
structure EnsureTrackPayload where
  slug : String
  title : String
  official_sources : Option (List String)
  track_type : Option TrackType
  owner_user_id : Option (Option String)
  status : Option TrackStatus
deriving Repr, DecidableEq

/-- The zod schema of POST /v1/internal/ensure-track (enum membership is
enforced by the Lean types). -/
def validEnsurePayload (p : EnsureTrackPayload) : Bool :=
  2 ≤ p.slug.length && p.slug.length ≤ 50 &&
  2 ≤ p.title.length && p.title.length ≤ 100 &&
  (match p.official_sources with
   | none => true
   | some us => us.all isValidUrl) &&
  (match p.owner_user_id with
   | some (some u) => isValidUuid u
   | _ => true)

structure EnsureResult where
  created : Bool
  track : Track
deriving Repr, DecidableEq

/-- The `ON CONFLICT (slug) DO UPDATE` write path: every stored row carrying
the conflicting slug is replaced (the UNIQUE constraint makes it one row). -/
def replaceTrack (ts : List Track) (slug : String) (t : Track) : List Track :=
  ts.map (fun o => if o.slug = slug then t else o)

/-- The row written by the upsert's insert path: supplied values with the
column defaults of schema.sql (`COALESCE($3::jsonb, '[]')`,
`COALESCE($4, 'custom')`, `COALESCE($6, 'draft')`; owner null when absent). -/
def insertedTrack (id slug : String) (p : EnsureTrackPayload) : Track :=
  { id := id
    slug := slug
    title := p.title
    official_sources := p.official_sources.getD []
    track_type := p.track_type.getD .custom
    owner_user_id := p.owner_user_id.getD none
    status := p.status.getD .draft }

/-- The row written by the upsert's `ON CONFLICT (slug) DO UPDATE` path:
title always overwritten; each optional column is `CASE WHEN <presence flag>
THEN EXCLUDED.<column> ELSE tracks.<column> END`. -/
def mergedTrack (old : Track) (p : EnsureTrackPayload) : Track :=
  { id := old.id
    slug := old.slug
    title := p.title
    official_sources :=
      match p.official_sources with
      | some v => v
      | none => old.official_sources
    track_type :=
      match p.track_type with
      | some v => v
      | none => old.track_type
    owner_user_id :=
      match p.owner_user_id with
      | some v => v
      | none => old.owner_user_id
    status :=
      match p.status with
      | some v => v
      | none => old.status }

/-- POST /v1/internal/ensure-track of server.js.  The slug is lowercased only —
the source applies no trim.  Presence flags (`hasOwnProperty`) select, per
optional field, between the EXCLUDED value and the stored one on the update
path, and between the supplied value and the column default on the insert
path.  The surrounding try/catch turns any thrown error into a 400. -/
def ensureTrack (s : Store) (p : EnsureTrackPayload) : Store × Except ApiError EnsureResult :=
  if !validEnsurePayload p then (s, .error .invalidPayload) else
  let slug := jsToLower p.slug
  match (match p.owner_user_id with
         | some (some uid) => ensureUser s (some uid)
         | _ => (s, .ok "")) with
  | (s1, .error _) => (s1, .error (.badRequest "Unable to ensure track."))
  | (s1, .ok _) =>
      match getTrackBySlug s1 slug with
      | none =>
          ({ s1 with
              tracks := s1.tracks ++ [insertedTrack (genUuid s1.nextId) slug p],
              nextId := s1.nextId + 1 },
           .ok ⟨true, insertedTrack (genUuid s1.nextId) slug p⟩)
      | some old =>
          ({ s1 with tracks := replaceTrack s1.tracks slug (mergedTrack old p) },
           .ok ⟨false, mergedTrack old p⟩)

-- ---------- POST /v1/internal/seed-lessons ----------

/-- One element of the `lessons` array of POST /v1/internal/seed-lessons, after
zod parsing (`.default([])` has already filled the list fields). -/
structure SeedLesson where
  lesson_order : Int
  title : String
  objectives : List String
  tags : List String
  source_urls : List String
deriving Repr, DecidableEq

structure SeedPayload where
  track_slug : String
  lessons : List SeedLesson
deriving Repr, DecidableEq

def validSeedLesson (l : SeedLesson) : Bool :=
  decide (0 < l.lesson_order) &&
  2 ≤ l.title.length && l.title.length ≤ 160 &&
  l.source_urls.all isValidUrl

/-- The zod schema of POST /v1/internal/seed-lessons: slug length bounds, at
least one lesson, each lesson a positive integer order with a bounded title. -/
def validSeedPayload (p : SeedPayload) : Bool :=
  2 ≤ p.track_slug.length && p.track_slug.length ≤ 50 &&
  !p.lessons.isEmpty && p.lessons.all validSeedLesson

structure LessonSummary where
  id : String
  lesson_order : Int
  title : String
deriving Repr, DecidableEq

structure SeedResult where
  inserted_or_updated : Nat
  lessons : List LessonSummary
deriving Repr, DecidableEq

/-- The `DO UPDATE SET title/objectives/tags/source_urls = EXCLUDED...` of the
lesson upsert: a full replace of the payload columns, keeping id. -/
def overwriteLesson (l : SeedLesson) (o : Lesson) : Lesson :=
  { o with title := l.title, objectives := l.objectives, tags := l.tags,
           source_urls := l.source_urls }

/-- One iteration of the seed loop: `INSERT INTO lessons ... ON CONFLICT
(track_id, lesson_order) DO UPDATE SET title/objectives/tags/source_urls =
EXCLUDED...` — a full replace of the payload fields, keeping id. -/
def upsertLesson (s : Store) (tid : String) (l : SeedLesson) : Store × LessonSummary :=
  match s.lessons.find? (fun o => o.track_id = tid && o.lesson_order = l.lesson_order) with
  | some old =>
      ({ s with lessons := s.lessons.map (fun o =>
          if o.track_id = tid && o.lesson_order = l.lesson_order then
            overwriteLesson l o
          else o) },
       ⟨old.id, l.lesson_order, l.title⟩)
  | none =>
      ({ s with
          lessons := s.lessons ++
            [⟨genUuid s.nextId, tid, l.lesson_order, l.title,
              l.objectives, l.tags, l.source_urls⟩],
          nextId := s.nextId + 1 },
       ⟨genUuid s.nextId, l.lesson_order, l.title⟩)

/-- One pass of the seed loop body: upsert the lesson and record its summary. -/
def seedStep (tid : String) (acc : Store × List LessonSummary) (l : SeedLesson) :
    Store × List LessonSummary :=
  let r := upsertLesson acc.1 tid l
  (r.1, acc.2 ++ [r.2])

/-- POST /v1/internal/seed-lessons of server.js.  Validation and the track
lookup run before `BEGIN`; the upsert loop runs inside one transaction whose
failure would ROLLBACK to the entry store — after validation no statement in
the loop can fail, so the loop is a plain fold. -/
def seedLessons (s : Store) (p : SeedPayload) : Store × Except ApiError SeedResult :=
  if !validSeedPayload p then (s, .error .invalidPayload) else
  match getTrackBySlug s (jsToLower p.track_slug) with
  | none => (s, .error (.notFound "Track not found"))
  | some tr =>
      let r := p.lessons.foldl (seedStep tr.id) (s, [])
      (r.1, .ok ⟨r.2.length, r.2⟩)

-- ---------- POST /v1/attempts ----------

/-- The zod-parsed body of POST /v1/attempts. -/
structure AttemptPayload where
  user_id : Option String
  lesson_id : String
  attempt_type : AttemptType
  score : Option ℚ
  max_score : Option ℚ
  duration_sec : Option Int
  weak_tags : Option (List String)
deriving Repr, DecidableEq

/-- The zod schema of POST /v1/attempts: `user_id` optional uuid, `lesson_id`
uuid, `duration_sec` positive integer when present (`z.number()` scores are
unconstrained). -/
def validAttemptPayload (p : AttemptPayload) : Bool :=
  (match p.user_id with
   | none => true
   | some u => isValidUuid u) &&
  isValidUuid p.lesson_id &&
  (match p.duration_sec with
   | none => true
   | some d => decide (0 < d))

/-- The pass rule of POST /v1/attempts: both scores present, positive maximum,
`score / max_score * 100 >= 70`. -/
def isPassing (p : AttemptPayload) : Bool :=
  match p.score, p.max_score with
  | some sc, some mx => decide (0 < mx) && decide ((70 : ℚ) ≤ sc / mx * 100)
  | _, _ => false

/-- `INSERT INTO attempts ...`.  `attempts.lesson_id` REFERENCES `lessons(id)`
(schema.sql), so the insert throws a foreign-key violation when the lesson id
is unknown; the user-id foreign key cannot fire because `ensureUser` has just
guaranteed the row. -/
def insertAttempt (s : Store) (uid : String) (p : AttemptPayload) :
    Store × Except ApiError Unit :=
  match lessonById s p.lesson_id with
  | none =>
      (s, .error (.unhandledDb
        "insert or update on table attempts violates foreign key constraint attempts_lesson_id_fkey"))
  | some _ =>
      ({ s with
          attempts := s.attempts ++
            [⟨genUuid s.nextId, uid, p.lesson_id, p.attempt_type,
              p.score, p.max_score, p.duration_sec, p.weak_tags.getD []⟩],
          nextId := s.nextId + 1 },
       .ok ())

structure AttemptResult where
  user_id : String
  advanced : Bool
deriving Repr, DecidableEq

/-- POST /v1/attempts of server.js, with the source's statement order: resolve
the learner, insert the attempt (the foreign-key check fires here), then select
the lesson — so the explicit 404 branch is reachable only if the insert
succeeded — and finally apply the pass rule, updating `user_track_state` rows
(an UPDATE: zero rows touched when no state row exists) and reporting
`advanced`. -/
def recordAttempt (s : Store) (p : AttemptPayload) : Store × Except ApiError AttemptResult :=
  if !validAttemptPayload p then (s, .error .invalidPayload) else
  match ensureUser s p.user_id with
  | (s1, .error e) => (s1, .error e)
  | (s1, .ok uid) =>
      match insertAttempt s1 uid p with
      | (s2, .error e) => (s2, .error e)
      | (s2, .ok _) =>
          match lessonById s2 p.lesson_id with
          | none => (s2, .error (.notFound "Lesson not found"))
          | some l =>
              if isPassing p then
                (advanceState s2 uid l.track_id (l.lesson_order + 1),
                 .ok ⟨uid, true⟩)
              else (s2, .ok ⟨uid, false⟩)

/-- A sequence of POST /v1/attempts calls, each applied to the store the
previous one left behind (a failed call still leaves its committed writes). -/
def runAttempts (s : Store) (ps : List AttemptPayload) : Store :=
  ps.foldl (fun st p => (recordAttempt st p).1) s

/-- A well-formed attempt submission against lessons of track `t` by the
already-registered learner `u`: the payload passes the zod schema, names `u`,
and its lesson id resolves to a lesson of track `t`. -/
def goodAttempt (s : Store) (u t : String) (p : AttemptPayload) : Bool :=
  p.user_id == some u && validAttemptPayload p &&
    (match lessonById s p.lesson_id with
     | some l => l.track_id == t
     | none => false)

/-- One more than the attempted lesson's position (the value handed to the
GREATEST update); 0 when the lesson id does not resolve. -/
def orderPlus1 (s : Store) (p : AttemptPayload) : Int :=
  match lessonById s p.lesson_id with
  | some l => l.lesson_order + 1
  | none => 0

/-- The effect of one POST /v1/attempts call on the stored cursor value:
a passing attempt raises it to `max` with position + 1, anything else leaves
it alone. -/
def cursorStep (s : Store) (c : Int) (p : AttemptPayload) : Int :=
  if isPassing p then max c (orderPlus1 s p) else c

-- ---------- GET /v1/lessons/next ----------

structure NextResult where
  user_id : String
  next_lesson : Option Lesson
deriving Repr, DecidableEq

/-- GET /v1/lessons/next of server.js: reject a missing/empty `track` query
parameter, resolve the learner, look the track up by the lowercased slug (404
when absent), upsert the state row, read the cursor, and serve the lesson at
the cursor — `next_lesson = none` (a 200, not an error) when no lesson row
exists at that position. -/
def lessonsNext (s : Store) (trackSlug : Option String) (userId : Option String) :
    Store × Except ApiError NextResult :=
  match trackSlug with
  | none => (s, .error (.badRequest "Missing ?track=slug"))
  | some raw =>
      if raw = "" then (s, .error (.badRequest "Missing ?track=slug")) else
      match ensureUser s userId with
      | (s1, .error e) => (s1, .error e)
      | (s1, .ok uid) =>
          match getTrackBySlug s1 (jsToLower raw) with
          | none => (s1, .error (.notFound "Track not found"))
          | some tr =>
              let s2 := ensureTrackState s1 uid tr.id
              match cursorOf s2 uid tr.id with
              | none => (s2, .error (.unhandledDb "user_track_state row missing"))
              | some cur => (s2, .ok ⟨uid, lessonAt s2 tr.id cur⟩)

/-! ## Helper lemmas -/

attribute [local semireducible] Rat.mul Rat.inv

theorem isValidUuid_ne_empty {u : String} (h : isValidUuid u = true) : u ≠ "" := by
  intro he
  subst he
  exact absurd h (by decide)

/-- A present, well-formed, already-registered identifier makes `ensureUser` a
pure read. -/
theorem ensureUser_mem {s : Store} {u : String}
    (hv : isValidUuid u = true) (hu : u ∈ s.users) :
    ensureUser s (some u) = (s, .ok u) := by
  have h1 : ¬ (u = "") := isValidUuid_ne_empty hv
  have hc : s.users.contains u = true := List.elem_iff.mpr hu
  simp [ensureUser, h1, hv, hc]
  intro hm
  exact absurd hu hm

/-- A present, well-formed identifier resolves to itself; the store keeps its
catalog and progress tables, keeps every existing user, and gains the resolved
user. -/
theorem ensureUser_some_spec {s : Store} {u : String} (hv : isValidUuid u = true) :
    ∃ s1, ensureUser s (some u) = (s1, .ok u) ∧
      s1.tracks = s.tracks ∧ s1.lessons = s.lessons ∧ s1.progress = s.progress ∧
      s1.attempts = s.attempts ∧ s1.nextId = s.nextId ∧
      u ∈ s1.users ∧ (∀ x ∈ s.users, x ∈ s1.users) := by
  have h1 : ¬ (u = "") := isValidUuid_ne_empty hv
  by_cases hm : u ∈ s.users
  · exact ⟨s, ensureUser_mem hv hm, rfl, rfl, rfl, rfl, rfl, hm, fun x hx => hx⟩
  · refine ⟨{ s with users := s.users ++ [u] }, ?_, rfl, rfl, rfl, rfl, rfl, ?_, ?_⟩
    · have hc : ¬ (s.users.contains u = true) := fun hc => hm (List.elem_iff.mp hc)
      simp [ensureUser, h1, hv, hc]
      intro hin
      exact absurd hin hm
    · simp
    · intro x hx
      simp [hx]

theorem findRow_advanceRows (rows : List ProgressRow) (u t : String) (n : Int) :
    findRow (advanceRows rows u t n) u t =
      (findRow rows u t).map
        (fun r => { r with current_lesson_order := max r.current_lesson_order n }) := by
  induction rows with
  | nil => rfl
  | cons r rest ih =>
      unfold advanceRows at ih ⊢
      unfold findRow at ih ⊢
      by_cases h : (decide (r.user_id = u) && decide (r.track_id = t)) = true
      · have h2 : r.user_id = u ∧ r.track_id = t := by simpa using h
        simp [List.find?_cons, h2.1, h2.2]
      · have h2 : ¬ (r.user_id = u ∧ r.track_id = t) := by simpa using h
        simp [List.find?_cons, h2]
        simpa using ih

theorem advanceRows_of_none {rows : List ProgressRow} {u t : String} (n : Int)
    (h : findRow rows u t = none) : advanceRows rows u t n = rows := by
  unfold findRow at h
  have hall := List.find?_eq_none.mp h
  unfold advanceRows
  have heach : ∀ x ∈ rows,
      (if (decide (x.user_id = u) && decide (x.track_id = t)) = true
       then { x with current_lesson_order := max x.current_lesson_order n } else x) = x := by
    intro x hx
    rw [if_neg (hall x hx)]
  rw [List.map_congr_left heach]
  simp

theorem cursorOf_advanceState (s : Store) (u t : String) (n : Int) :
    cursorOf (advanceState s u t n) u t =
      (cursorOf s u t).map (fun c => max c n) := by
  unfold cursorOf advanceState
  simp only [findRow_advanceRows]
  cases findRow s.progress u t <;> rfl

theorem cursorOf_ensureTrackState (s : Store) (u t : String) :
    cursorOf (ensureTrackState s u t) u t = some ((cursorOf s u t).getD 1) := by
  unfold cursorOf ensureTrackState
  cases h : findRow s.progress u t with
  | some r => rw [h]; rfl
  | none =>
      simp only
      unfold findRow at h ⊢
      rw [List.find?_append, h]
      simp

theorem lessonById_congr {s s' : Store} (h : s'.lessons = s.lessons) (i : String) :
    lessonById s' i = lessonById s i := by
  unfold lessonById
  rw [h]

/-- A valid, well-referenced POST /v1/attempts call by a registered learner:
the attempt row is appended, and on a pass the progress rows of the lesson's
track are raised; nothing else happens. -/
theorem recordAttempt_eq {s : Store} {p : AttemptPayload} {u : String} {l : Lesson}
    (hval : validAttemptPayload p = true)
    (huid : p.user_id = some u)
    (hv : isValidUuid u = true)
    (hu : u ∈ s.users)
    (hl : lessonById s p.lesson_id = some l) :
    recordAttempt s p =
      (let s2 : Store :=
        { s with
            attempts := s.attempts ++
              [⟨genUuid s.nextId, u, p.lesson_id, p.attempt_type,
                p.score, p.max_score, p.duration_sec, p.weak_tags.getD []⟩],
            nextId := s.nextId + 1 }
      if isPassing p then
        (advanceState s2 u l.track_id (l.lesson_order + 1), .ok ⟨u, true⟩)
      else (s2, .ok ⟨u, false⟩)) := by
  have hl' : List.find? (fun x => decide (x.id = p.lesson_id)) s.lessons = some l := by
    simpa [lessonById] using hl
  simp only [recordAttempt, hval, Bool.not_true, huid, ensureUser_mem hv hu,
    insertAttempt, lessonById, hl']
  rfl

/-- The cursor after one valid attempt call follows `cursorStep`. -/
theorem recordAttempt_cursor {s : Store} {p : AttemptPayload} {u t : String}
    {l : Lesson} {c : Int}
    (hval : validAttemptPayload p = true)
    (huid : p.user_id = some u)
    (hv : isValidUuid u = true)
    (hu : u ∈ s.users)
    (hl : lessonById s p.lesson_id = some l)
    (ht : l.track_id = t)
    (hc : cursorOf s u t = some c) :
    cursorOf (recordAttempt s p).1 u t = some (cursorStep s c p) := by
  rw [recordAttempt_eq hval huid hv hu hl]
  by_cases hp : isPassing p
  · simp only [hp, if_pos, cursorStep, if_true, orderPlus1, hl, ht]
    rw [cursorOf_advanceState]
    have hc2 : cursorOf
        { s with
            attempts := s.attempts ++
              [⟨genUuid s.nextId, u, p.lesson_id, p.attempt_type,
                p.score, p.max_score, p.duration_sec, p.weak_tags.getD []⟩],
            nextId := s.nextId + 1 } u t = some c := hc
    rw [hc2]
    rfl
  · simp only [hp, cursorStep, if_false, Bool.false_eq_true]
    exact hc

/-- One valid attempt call leaves the user, lesson and track tables unchanged. -/
theorem recordAttempt_tables {s : Store} {p : AttemptPayload} {u : String} {l : Lesson}
    (hval : validAttemptPayload p = true)
    (huid : p.user_id = some u)
    (hv : isValidUuid u = true)
    (hu : u ∈ s.users)
    (hl : lessonById s p.lesson_id = some l) :
    (recordAttempt s p).1.users = s.users ∧
    (recordAttempt s p).1.lessons = s.lessons ∧
    (recordAttempt s p).2 = .ok ⟨u, isPassing p⟩ ∧
    (recordAttempt s p).1.attempts = s.attempts ++
      [⟨genUuid s.nextId, u, p.lesson_id, p.attempt_type,
        p.score, p.max_score, p.duration_sec, p.weak_tags.getD []⟩] ∧
    ((recordAttempt s p).1.progress =
      if isPassing p then advanceRows s.progress u l.track_id (l.lesson_order + 1)
      else s.progress) := by
  rw [recordAttempt_eq hval huid hv hu hl]
  by_cases hp : isPassing p
  · simp [hp, advanceState]
  · simp [hp, advanceState]

theorem goodAttempt_parts {s : Store} {u t : String} {p : AttemptPayload}
    (h : goodAttempt s u t p = true) :
    p.user_id = some u ∧ validAttemptPayload p = true ∧
      ∃ l, lessonById s p.lesson_id = some l ∧ l.track_id = t := by
  unfold goodAttempt at h
  cases hl : lessonById s p.lesson_id with
  | none =>
      rw [hl] at h
      simp at h
  | some l =>
      rw [hl] at h
      simp only [Bool.and_eq_true, beq_iff_eq] at h
      exact ⟨h.1.1, h.1.2, l, rfl, h.2⟩

theorem cursorStep_congr {s s0 : Store} (h : s.lessons = s0.lessons)
    (c : Int) (p : AttemptPayload) : cursorStep s c p = cursorStep s0 c p := by
  unfold cursorStep orderPlus1
  rw [lessonById_congr h]

/-- The cursor after a sequence of valid attempts is the `cursorStep` fold. -/
theorem runAttempts_cursor {s0 : Store} {u t : String} (hv : isValidUuid u = true)
    (ps : List AttemptPayload) :
    ∀ (s : Store) (c : Int), u ∈ s.users → s.lessons = s0.lessons →
      cursorOf s u t = some c → (∀ p ∈ ps, goodAttempt s0 u t p = true) →
      cursorOf (runAttempts s ps) u t = some (ps.foldl (cursorStep s0) c) := by
  induction ps with
  | nil =>
      intro s c _ _ hc _
      simpa [runAttempts] using hc
  | cons p ps ih =>
      intro s c hu hles hc hgood
      obtain ⟨huid, hval, l, hl0, ht⟩ := goodAttempt_parts (hgood p (by simp))
      have hl : lessonById s p.lesson_id = some l := by
        rw [lessonById_congr hles]
        exact hl0
      have tab := recordAttempt_tables hval huid hv hu hl
      have hcur := recordAttempt_cursor hval huid hv hu hl ht hc
      have hstep := cursorStep_congr hles c p
      show cursorOf (runAttempts (recordAttempt s p).1 ps) u t = _
      rw [ih (recordAttempt s p).1 (cursorStep s0 c p) (tab.1.symm ▸ hu)
        (by rw [tab.2.1, hles]) (by rw [hcur, hstep])
        (fun q hq => hgood q (by simp [hq]))]
      rfl

/-- The `cursorStep` fold is the `max`-fold of position + 1 over the passing
attempts. -/
theorem foldl_cursorStep_eq (s0 : Store) (ps : List AttemptPayload) :
    ∀ c : Int, ps.foldl (cursorStep s0) c =
      ((ps.filter (fun p => isPassing p)).map (fun p => orderPlus1 s0 p)).foldl max c := by
  induction ps with
  | nil => intro c; rfl
  | cons p ps ih =>
      intro c
      by_cases hp : isPassing p = true
      · simp only [List.foldl_cons, List.filter_cons, hp, if_pos, List.map_cons]
        rw [ih]
        unfold cursorStep
        rw [hp]
        simp
      · simp only [List.foldl_cons, List.filter_cons, hp, List.map_cons]
        rw [ih]
        unfold cursorStep
        simp only [hp]
        simp [Bool.not_eq_true] at hp
        simp [hp]

theorem cursorStep_right_comm (s0 : Store) (x y : AttemptPayload) (c : Int) :
    cursorStep s0 (cursorStep s0 c x) y = cursorStep s0 (cursorStep s0 c y) x := by
  unfold cursorStep
  by_cases hx : isPassing x = true <;> by_cases hy : isPassing y = true <;>
    simp [hx, hy]
  exact sup_right_comm c (orderPlus1 s0 x) (orderPlus1 s0 y)

/-! ## C1 -/

/-- C1 (amended claim): for a (learner, track) pair with an existing
ProgressState and any finite sequence of valid recordAttempt calls against
lessons of that track, (i) the final cursor equals the max-fold of
(lesson position + 1) over the passing attempts, started from the initial
stored cursor — that is, max(initial cursor, 1 + max passing position) —
(ii) the result is independent of the order in which the calls are applied,
and (iii) no single call ever decreases the stored cursor. -/
theorem c1_cursor_monotone_order_independent
    (s : Store) (u t : String) (c0 : Int) (ps ps' : List AttemptPayload)
    (hv : isValidUuid u = true) (hu : u ∈ s.users)
    (hc : cursorOf s u t = some c0)
    (hgood : ∀ p ∈ ps, goodAttempt s u t p = true)
    (hperm : List.Perm ps ps') :
    cursorOf (runAttempts s ps) u t =
      some (((ps.filter (fun p => isPassing p)).map (fun p => orderPlus1 s p)).foldl max c0)
    ∧ cursorOf (runAttempts s ps') u t = cursorOf (runAttempts s ps) u t
    ∧ (∀ q, goodAttempt s u t q = true →
        ∃ c', cursorOf (recordAttempt s q).1 u t = some c' ∧ c0 ≤ c') := by
  have h1 := runAttempts_cursor hv ps s c0 hu rfl hc hgood
  have hgood' : ∀ p ∈ ps', goodAttempt s u t p = true := fun p hp =>
    hgood p (hperm.mem_iff.mpr hp)
  have h2 := runAttempts_cursor hv ps' s c0 hu rfl hc hgood'
  have hfold : List.foldl (cursorStep s) c0 ps' = List.foldl (cursorStep s) c0 ps :=
    (hperm.foldl_eq' (fun x _ y _ z => cursorStep_right_comm s x y z) c0).symm
  refine ⟨by rw [h1, foldl_cursorStep_eq], by rw [h1, h2, hfold], ?_⟩
  intro q hq
  obtain ⟨huid, hval, l, hl, ht⟩ := goodAttempt_parts hq
  refine ⟨cursorStep s c0 q, recordAttempt_cursor hval huid hv hu hl ht hc, ?_⟩
  unfold cursorStep
  by_cases hp : isPassing q = true
  · simp [hp, le_max_left]
  · simp [hp]

def c1u : String := "11111111-1111-1111-1111-111111111111"

def c1tid : String := "33333333-3333-3333-3333-333333333333"

def c1store : Store :=
  { users := [c1u]
  , tracks := [⟨c1tid, "python", "Python", [], .custom, none, .active⟩]
  , lessons := [⟨"22222222-2222-2222-2222-222222222222", c1tid, 1, "Basics", [], [], []⟩]
  , attempts := []
  , progress := [⟨c1u, c1tid, 5⟩]
  , nextId := 0 }

def c1pass : AttemptPayload :=
  ⟨some c1u, "22222222-2222-2222-2222-222222222222", .quiz, some 10, some 10, none, none⟩

/-- C1 counterexample: with an existing ProgressState whose stored cursor is 5,
a single passing attempt (10/10) on the track's lesson at position 1 leaves the
final cursor at 5 — not 1 + 1 = 2, the value the claim's final-cursor formula
"1 + the maximum lesson position among passing attempts" demands. -/
theorem c1_counterexample_initial_cursor_dominates :
    isPassing c1pass = true ∧
    cursorOf c1store c1u c1tid = some 5 ∧
    cursorOf (runAttempts c1store [c1pass]) c1u c1tid = some 5 ∧
    (5 : Int) ≠ 1 + 1 := by
  refine ⟨by decide, by decide, by decide, by decide⟩

def c1wStore : Store :=
  { users := [c1u]
  , tracks := [⟨c1tid, "python", "Python", [], .custom, none, .active⟩]
  , lessons :=
      [⟨"22222222-2222-2222-2222-222222222222", c1tid, 1, "Basics", [], [], []⟩,
       ⟨"44444444-4444-4444-4444-444444444444", c1tid, 2, "Loops", [], [], []⟩]
  , attempts := []
  , progress := [⟨c1u, c1tid, 1⟩]
  , nextId := 0 }

def c1wPass1 : AttemptPayload :=
  ⟨some c1u, "22222222-2222-2222-2222-222222222222", .quiz, some 8, some 10, none, none⟩

def c1wFail2 : AttemptPayload :=
  ⟨some c1u, "44444444-4444-4444-4444-444444444444", .quiz, some 5, some 10, none, none⟩

/-- C1 witness: the amended theorem applied to a concrete store, a fresh
cursor at 1 and the interleaved sequence pass(lesson 1), fail(lesson 2) and
its reversal. -/
theorem c1_witness :
    cursorOf (runAttempts c1wStore [c1wPass1, c1wFail2]) c1u c1tid =
      some ((([c1wPass1, c1wFail2].filter (fun p => isPassing p)).map
        (fun p => orderPlus1 c1wStore p)).foldl max 1)
    ∧ cursorOf (runAttempts c1wStore [c1wFail2, c1wPass1]) c1u c1tid =
        cursorOf (runAttempts c1wStore [c1wPass1, c1wFail2]) c1u c1tid :=
  ⟨(c1_cursor_monotone_order_independent c1wStore c1u c1tid 1
      [c1wPass1, c1wFail2] [c1wFail2, c1wPass1]
      (by decide) (by decide) (by decide) (by decide) (by decide)).1,
   (c1_cursor_monotone_order_independent c1wStore c1u c1tid 1
      [c1wPass1, c1wFail2] [c1wFail2, c1wPass1]
      (by decide) (by decide) (by decide) (by decide) (by decide)).2.1⟩

/-! ## C4 -/

/-- C4: for a valid recordAttempt call on an existing lesson, the reported
`advanced` flag equals the pass rule (both scores supplied, positive maximum,
score / maxScore * 100 >= 70); when the rule fails no progress row is
modified; when it holds the progress rows of the lesson's track are raised;
and the attempt row is appended in either case. -/
theorem c4_attempt_advancement_rule
    (s : Store) (p : AttemptPayload) (u : String) (l : Lesson)
    (hval : validAttemptPayload p = true)
    (huid : p.user_id = some u)
    (hv : isValidUuid u = true)
    (hu : u ∈ s.users)
    (hl : lessonById s p.lesson_id = some l) :
    ∃ s' res, recordAttempt s p = (s', .ok res) ∧
      res.advanced = isPassing p ∧
      (isPassing p = false → s'.progress = s.progress) ∧
      (isPassing p = true →
        s'.progress = advanceRows s.progress u l.track_id (l.lesson_order + 1)) ∧
      s'.attempts = s.attempts ++
        [⟨genUuid s.nextId, u, p.lesson_id, p.attempt_type, p.score, p.max_score,
          p.duration_sec, p.weak_tags.getD []⟩] := by
  have tab := recordAttempt_tables hval huid hv hu hl
  refine ⟨(recordAttempt s p).1, ⟨u, isPassing p⟩, ?_, rfl, ?_, ?_, tab.2.2.2.1⟩
  · rw [← tab.2.2.1]
  · intro hp
    rw [tab.2.2.2.2, hp]
    simp
  · intro hp
    rw [tab.2.2.2.2, hp]
    simp

def c4u : String := "11111111-1111-1111-1111-111111111111"

def c4tid : String := "33333333-3333-3333-3333-333333333333"

def c4store : Store :=
  { users := [c4u]
  , tracks := [⟨c4tid, "python", "Python", [], .custom, none, .active⟩]
  , lessons := [⟨"22222222-2222-2222-2222-222222222222", c4tid, 2, "Loops", [], [], []⟩]
  , attempts := []
  , progress := [⟨c4u, c4tid, 2⟩]
  , nextId := 0 }

def c4fail : AttemptPayload :=
  ⟨some c4u, "22222222-2222-2222-2222-222222222222", .quiz, some 5, some 10, none, none⟩

/-- C4 witness: the failing-attempt scenario — a 5/10 attempt at cursor 2 is
recorded, reports `advanced = false` and leaves the progress rows unchanged. -/
theorem c4_witness :
    isPassing c4fail = false ∧
    (∃ s' res, recordAttempt c4store c4fail = (s', .ok res) ∧
      res.advanced = isPassing c4fail ∧
      (isPassing c4fail = false → s'.progress = c4store.progress) ∧
      (isPassing c4fail = true →
        s'.progress = advanceRows c4store.progress c4u c4tid (2 + 1)) ∧
      s'.attempts = c4store.attempts ++
        [⟨genUuid c4store.nextId, c4u, c4fail.lesson_id, c4fail.attempt_type,
          c4fail.score, c4fail.max_score, c4fail.duration_sec,
          c4fail.weak_tags.getD []⟩]) :=
  ⟨by decide,
   c4_attempt_advancement_rule c4store c4fail c4u
     ⟨"22222222-2222-2222-2222-222222222222", c4tid, 2, "Loops", [], [], []⟩
     (by decide) (by decide) (by decide) (by decide) (by decide)⟩

/-! ## C7 -/

/-- C7: a valid passing recordAttempt call on an existing lesson reports
`advanced = true` even when no ProgressState row exists for the (learner,
track) pair; in that case the UPDATE touches zero rows, so the progress table
is unchanged, and a subsequent state initialisation (the GET /v1/lessons/next
upsert) still starts the cursor at position 1. -/
theorem c7_advanced_without_state_row
    (s : Store) (p : AttemptPayload) (u t : String) (l : Lesson)
    (hval : validAttemptPayload p = true)
    (huid : p.user_id = some u)
    (hv : isValidUuid u = true)
    (hu : u ∈ s.users)
    (hl : lessonById s p.lesson_id = some l)
    (ht : l.track_id = t)
    (hpass : isPassing p = true)
    (hnorow : findRow s.progress u t = none) :
    ∃ s' res, recordAttempt s p = (s', .ok res) ∧
      res.advanced = true ∧
      s'.progress = s.progress ∧
      cursorOf (ensureTrackState s' u t) u t = some 1 := by
  have tab := recordAttempt_tables hval huid hv hu hl
  have hprog : (recordAttempt s p).1.progress = s.progress := by
    rw [tab.2.2.2.2, hpass]
    simp only [if_pos]
    rw [ht]
    exact advanceRows_of_none _ hnorow
  refine ⟨(recordAttempt s p).1, ⟨u, true⟩, ?_, rfl, hprog, ?_⟩
  · rw [← hpass, ← tab.2.2.1]
  · rw [cursorOf_ensureTrackState]
    have hcur : cursorOf (recordAttempt s p).1 u t = none := by
      unfold cursorOf
      rw [hprog, hnorow]
      rfl
    rw [hcur]
    rfl

def c7u : String := "11111111-1111-1111-1111-111111111111"

def c7tid : String := "33333333-3333-3333-3333-333333333333"

def c7store : Store :=
  { users := [c7u]
  , tracks := [⟨c7tid, "python", "Python", [], .custom, none, .active⟩]
  , lessons := [⟨"22222222-2222-2222-2222-222222222222", c7tid, 3, "Files", [], [], []⟩]
  , attempts := []
  , progress := []
  , nextId := 0 }

def c7pass : AttemptPayload :=
  ⟨some c7u, "22222222-2222-2222-2222-222222222222", .quiz, some 9, some 10, none, none⟩

/-- C7 witness: a passing 9/10 attempt on lesson position 3 with no
ProgressState row reports `advanced = true`, modifies no progress rows, and a
following state initialisation starts the cursor at 1. -/
theorem c7_witness :
    isPassing c7pass = true ∧ findRow c7store.progress c7u c7tid = none ∧
    (∃ s' res, recordAttempt c7store c7pass = (s', .ok res) ∧
      res.advanced = true ∧
      s'.progress = c7store.progress ∧
      cursorOf (ensureTrackState s' c7u c7tid) c7u c7tid = some 1) :=
  ⟨by decide, by decide,
   c7_advanced_without_state_row c7store c7pass c7u c7tid
     ⟨"22222222-2222-2222-2222-222222222222", c7tid, 3, "Files", [], [], []⟩
     (by decide) (by decide) (by decide) (by decide) (by decide) (by decide)
     (by decide) (by decide)⟩

/-! ## C5 -/

def c5u : String := "11111111-1111-1111-1111-111111111111"

def c5tid : String := "33333333-3333-3333-3333-333333333333"

def c5store : Store :=
  { users := [c5u]
  , tracks := [⟨c5tid, "python", "Python", [], .custom, none, .active⟩]
  , lessons := [⟨"22222222-2222-2222-2222-222222222222", c5tid, 1, "Basics", [], [], []⟩]
  , attempts := []
  , progress := [⟨c5u, c5tid, 1⟩]
  , nextId := 0 }

def c5unknown : AttemptPayload :=
  ⟨some c5u, "99999999-9999-9999-9999-999999999999", .quiz, some 10, some 10, none, none⟩

/-- C5 (code_bug evidence): a recordAttempt call whose lesson id matches no
stored Lesson writes no Attempt row — but it fails with the foreign-key
violation thrown by the attempts INSERT, which runs before the lesson lookup,
so the handler's explicit 404 "Lesson not found" branch is never reached;
the claim's (and the handler's own) NotFound outcome does not occur. -/
theorem c5_unknown_lesson_fk_error :
    recordAttempt c5store c5unknown =
      (c5store, .error (.unhandledDb
        "insert or update on table attempts violates foreign key constraint attempts_lesson_id_fkey"))
    ∧ (recordAttempt c5store c5unknown).1.attempts = c5store.attempts
    ∧ (recordAttempt c5store c5unknown).2 ≠ .error (.notFound "Lesson not found") :=
  ⟨by decide, by decide, by decide⟩

/-! ## C8 -/

/-- C8: a next-lesson request on an existing track succeeds with
`next_lesson = none` — not an error — whenever no Lesson row exists at the
learner's (possibly freshly initialised) cursor position. -/
theorem c8_next_lesson_missing_is_null
    (s : Store) (raw u : String) (tr : Track)
    (hraw : ¬ (raw = ""))
    (hv : isValidUuid u = true)
    (hu : u ∈ s.users)
    (htr : getTrackBySlug s (jsToLower raw) = some tr)
    (hno : lessonAt s tr.id ((cursorOf s u tr.id).getD 1) = none) :
    ∃ s' res, lessonsNext s (some raw) (some u) = (s', .ok res) ∧
      res.next_lesson = none := by
  refine ⟨ensureTrackState s u tr.id, ⟨u, none⟩, ?_, rfl⟩
  have hcur := cursorOf_ensureTrackState s u tr.id
  have hles : lessonAt (ensureTrackState s u tr.id) tr.id
      ((cursorOf s u tr.id).getD 1) = none := by
    unfold lessonAt ensureTrackState at *
    cases findRow s.progress u tr.id <;> simpa using hno
  simp only [lessonsNext, if_neg hraw, ensureUser_mem hv hu, htr, hcur, hles]

def c8u : String := "11111111-1111-1111-1111-111111111111"

def c8tid : String := "55555555-5555-5555-5555-555555555555"

def c8store : Store :=
  { users := [c8u]
  , tracks := [⟨c8tid, "docker", "Docker", [], .custom, none, .draft⟩]
  , lessons := []
  , attempts := []
  , progress := []
  , nextId := 0 }

/-- C8 witness: the missing-curriculum scenario — a track ensured with no
seeded lessons answers the next-lesson request with a successful
`next_lesson = none`. -/
theorem c8_witness :
    getTrackBySlug c8store "docker" = some ⟨c8tid, "docker", "Docker", [], .custom, none, .draft⟩
    ∧ (∃ s' res, lessonsNext c8store (some "DOCKER") (some c8u) = (s', .ok res) ∧
        res.next_lesson = none) :=
  ⟨by decide,
   c8_next_lesson_missing_is_null c8store "DOCKER" c8u
     ⟨c8tid, "docker", "Docker", [], .custom, none, .draft⟩
     (by decide) (by decide) (by decide) (by decide) (by decide)⟩

/-! ## EnsureTrack lemmas -/

theorem getTrackBySlug_congr {s s' : Store} (h : s'.tracks = s.tracks) (slug : String) :
    getTrackBySlug s' slug = getTrackBySlug s slug := by
  unfold getTrackBySlug
  rw [h]

theorem validEnsure_owner {p : EnsureTrackPayload} {uid : String}
    (hvp : validEnsurePayload p = true) (h : p.owner_user_id = some (some uid)) :
    isValidUuid uid = true := by
  unfold validEnsurePayload at hvp
  rw [h] at hvp
  simp only [Bool.and_eq_true] at hvp
  exact hvp.2

/-- POST /v1/internal/ensure-track on a valid payload: the owner resolution
(when present) only adds user rows, and the track upsert then runs against the
same catalog. -/
theorem ensureTrack_spec {s : Store} {p : EnsureTrackPayload}
    (hvp : validEnsurePayload p = true) :
    ∃ s1 : Store, s1.tracks = s.tracks ∧ s1.lessons = s.lessons ∧
      s1.progress = s.progress ∧ s1.attempts = s.attempts ∧ s1.nextId = s.nextId ∧
      (∀ x ∈ s.users, x ∈ s1.users) ∧
      (∀ uid, p.owner_user_id = some (some uid) → uid ∈ s1.users) ∧
      ensureTrack s p =
        (match getTrackBySlug s (jsToLower p.slug) with
         | none =>
             ({ s1 with
                 tracks := s1.tracks ++
                   [insertedTrack (genUuid s1.nextId) (jsToLower p.slug) p],
                 nextId := s1.nextId + 1 },
              .ok ⟨true, insertedTrack (genUuid s1.nextId) (jsToLower p.slug) p⟩)
         | some old =>
             ({ s1 with
                 tracks := replaceTrack s1.tracks (jsToLower p.slug) (mergedTrack old p) },
              .ok ⟨false, mergedTrack old p⟩)) := by
  match howner : p.owner_user_id with
  | none =>
      refine ⟨s, rfl, rfl, rfl, rfl, rfl, fun x hx => hx, by simp [howner], ?_⟩
      simp only [ensureTrack, hvp, Bool.not_true, Bool.false_eq_true, if_false, howner]
  | some none =>
      refine ⟨s, rfl, rfl, rfl, rfl, rfl, fun x hx => hx, by simp [howner], ?_⟩
      simp only [ensureTrack, hvp, Bool.not_true, Bool.false_eq_true, if_false, howner]
  | some (some uid) =>
      have hvu := validEnsure_owner hvp howner
      obtain ⟨s1, heu, htr, hles, hpr, hat, hni, hmem, hall⟩ :=
        @ensureUser_some_spec s uid hvu
      refine ⟨s1, htr, hles, hpr, hat, hni, hall, ?_, ?_⟩
      · intro uid' huid'
        have : uid = uid' := by
          injection huid' with h1
          injection h1
        exact this ▸ hmem
      · simp only [ensureTrack, hvp, Bool.not_true, Bool.false_eq_true, if_false,
          howner, heu]
        rw [getTrackBySlug_congr htr]

/-- When the payload's owner (if present) is already registered, the owner
resolution is a pure read and ensure-track rewrites the entry store itself. -/
theorem ensureTrack_spec_pure {s : Store} {p : EnsureTrackPayload}
    (hvp : validEnsurePayload p = true)
    (howner : ∀ uid, p.owner_user_id = some (some uid) → uid ∈ s.users) :
    ensureTrack s p =
      (match getTrackBySlug s (jsToLower p.slug) with
       | none =>
           ({ s with
               tracks := s.tracks ++
                 [insertedTrack (genUuid s.nextId) (jsToLower p.slug) p],
               nextId := s.nextId + 1 },
            .ok ⟨true, insertedTrack (genUuid s.nextId) (jsToLower p.slug) p⟩)
       | some old =>
           ({ s with
               tracks := replaceTrack s.tracks (jsToLower p.slug) (mergedTrack old p) },
            .ok ⟨false, mergedTrack old p⟩)) := by
  match ho : p.owner_user_id with
  | none =>
      simp only [ensureTrack, hvp, Bool.not_true, Bool.false_eq_true, if_false, ho]
  | some none =>
      simp only [ensureTrack, hvp, Bool.not_true, Bool.false_eq_true, if_false, ho]
  | some (some uid) =>
      have hvu := validEnsure_owner hvp ho
      have heu := ensureUser_mem hvu (howner uid ho)
      simp only [ensureTrack, hvp, Bool.not_true, Bool.false_eq_true, if_false, ho, heu]

theorem find?_replaceTrack {ts : List Track} {slug : String} {old : Track}
    (t : Track) (hts : t.slug = slug)
    (h : ts.find? (fun o => o.slug = slug) = some old) :
    (replaceTrack ts slug t).find? (fun o => o.slug = slug) = some t := by
  induction ts with
  | nil => simp at h
  | cons a ts ih =>
      unfold replaceTrack at ih ⊢
      by_cases ha : a.slug = slug
      · simp [List.find?_cons, ha, hts]
      · rw [List.find?_cons_of_neg _ (by simpa using ha)] at h
        simp only [List.map_cons, if_neg (by simpa using ha)]
        rw [List.find?_cons_of_neg _ (by simpa using ha)]
        exact ih h

theorem replaceTrack_append_self {ts : List Track} {slug : String} {t : Track}
    (h : ∀ o ∈ ts, ¬ (o.slug = slug)) :
    replaceTrack (ts ++ [t]) slug t = ts ++ [t] := by
  unfold replaceTrack
  rw [List.map_append]
  congr 1
  · have heach : ∀ o ∈ ts, (if o.slug = slug then t else o) = o := by
      intro o ho
      rw [if_neg (h o ho)]
    rw [List.map_congr_left heach]
    simp
  · simp [ite_self]

theorem mergedTrack_insertedTrack (id slug : String) (p : EnsureTrackPayload) :
    mergedTrack (insertedTrack id slug p) p = insertedTrack id slug p := by
  unfold mergedTrack insertedTrack
  cases p.official_sources <;> cases p.track_type <;>
    cases p.owner_user_id <;> cases p.status <;> rfl

/-- The insert path of ensure-track on a fresh slug: one new row, appended
after rows none of which carry the slug, and found by the slug lookup. -/
theorem ensureTrack_insert {s : Store} {p : EnsureTrackPayload}
    (hvp : validEnsurePayload p = true)
    (hnone : getTrackBySlug s (jsToLower p.slug) = none) :
    ∃ pre : List Track, ∃ t : Track, ∃ s1 : Store,
      ensureTrack s p = (s1, .ok ⟨true, t⟩) ∧
      t.slug = jsToLower p.slug ∧
      (∃ n, t = insertedTrack (genUuid n) (jsToLower p.slug) p) ∧
      s1.tracks = pre ++ [t] ∧
      (∀ o ∈ pre, ¬ (o.slug = jsToLower p.slug)) ∧
      getTrackBySlug s1 (jsToLower p.slug) = some t ∧
      (∀ uid, p.owner_user_id = some (some uid) → uid ∈ s1.users) := by
  obtain ⟨s0, htr, _hles, _hpr, _hat, _hni, _hus, hown, heq⟩ :=
    @ensureTrack_spec s p hvp
  rw [hnone] at heq
  have hfind0 : s0.tracks.find? (fun o => decide (o.slug = jsToLower p.slug)) = none := by
    have h2 := hnone
    unfold getTrackBySlug at h2
    rw [htr]
    exact h2
  have hnomatch : ∀ o ∈ s0.tracks, ¬ (o.slug = jsToLower p.slug) := by
    intro o ho hos
    have := List.find?_eq_none.mp hfind0 o ho
    simp [hos] at this
  refine ⟨s0.tracks, insertedTrack (genUuid s0.nextId) (jsToLower p.slug) p, _,
    heq, rfl, ⟨s0.nextId, rfl⟩, rfl, hnomatch, ?_, hown⟩
  show ((s0.tracks ++ [insertedTrack (genUuid s0.nextId) (jsToLower p.slug) p]).find?
      (fun o => decide (o.slug = jsToLower p.slug))) = _
  rw [List.find?_append, hfind0]
  simp [insertedTrack]

/-! ## C2 -/

/-- C2: for an existing track, ensure-track performs a partial merge — the
required title is overwritten, each optional field present in the payload
overwrites the stored value, and each omitted optional field
(official_sources, track_type, owner_user_id, status) keeps its previously
stored value; the merged row replaces the stored one under the same slug and
id. -/
theorem c2_ensure_track_partial_merge
    (s : Store) (p : EnsureTrackPayload) (old : Track)
    (hvp : validEnsurePayload p = true)
    (hold : getTrackBySlug s (jsToLower p.slug) = some old) :
    ∃ s' res, ensureTrack s p = (s', .ok res) ∧
      res.created = false ∧
      getTrackBySlug s' (jsToLower p.slug) = some res.track ∧
      res.track.id = old.id ∧ res.track.slug = old.slug ∧ res.track.title = p.title ∧
      (p.official_sources = none → res.track.official_sources = old.official_sources) ∧
      (p.track_type = none → res.track.track_type = old.track_type) ∧
      (p.owner_user_id = none → res.track.owner_user_id = old.owner_user_id) ∧
      (p.status = none → res.track.status = old.status) ∧
      (∀ v, p.official_sources = some v → res.track.official_sources = v) ∧
      (∀ v, p.track_type = some v → res.track.track_type = v) ∧
      (∀ v, p.owner_user_id = some v → res.track.owner_user_id = v) ∧
      (∀ v, p.status = some v → res.track.status = v) := by
  obtain ⟨s1, htr, _hles, _hpr, _hat, _hni, _hus, _hown, heq⟩ :=
    @ensureTrack_spec s p hvp
  rw [hold] at heq
  have hfind1 : s1.tracks.find? (fun o => decide (o.slug = jsToLower p.slug)) = some old := by
    have h2 := hold
    unfold getTrackBySlug at h2
    rw [htr]
    exact h2
  have holdslug : old.slug = jsToLower p.slug := by
    have := List.find?_some hfind1
    simpa using this
  refine ⟨_, _, heq, rfl, ?_, rfl, rfl, rfl, ?_, ?_, ?_, ?_, ?_, ?_, ?_, ?_⟩
  · show (replaceTrack s1.tracks (jsToLower p.slug) (mergedTrack old p)).find?
        (fun o => decide (o.slug = jsToLower p.slug)) = some (mergedTrack old p)
    exact find?_replaceTrack _ holdslug hfind1
  · intro h
    simp [mergedTrack, h]
  · intro h
    simp [mergedTrack, h]
  · intro h
    simp [mergedTrack, h]
  · intro h
    simp [mergedTrack, h]
  · intro v h
    simp [mergedTrack, h]
  · intro v h
    simp [mergedTrack, h]
  · intro v h
    simp [mergedTrack, h]
  · intro v h
    simp [mergedTrack, h]

def c2store : Store :=
  { users := []
  , tracks := [⟨"33333333-3333-3333-3333-333333333333", "python", "Python", [], .official,
      none, .active⟩]
  , lessons := []
  , attempts := []
  , progress := []
  , nextId := 1 }

def c2payload : EnsureTrackPayload :=
  ⟨"python", "Python 3", none, none, none, none⟩

/-- C2 witness: an ensure-track call supplying only slug and title against a
stored track whose status is active leaves status (and the other omitted
fields) unchanged. -/
theorem c2_witness :
    c2payload.status = none ∧
    (∃ s' res, ensureTrack c2store c2payload = (s', .ok res) ∧
      res.created = false ∧
      getTrackBySlug s' (jsToLower c2payload.slug) = some res.track ∧
      res.track.id = "33333333-3333-3333-3333-333333333333" ∧
      res.track.slug = "python" ∧ res.track.title = "Python 3" ∧
      (c2payload.status = none → res.track.status = TrackStatus.active)) := by
  have h := c2_ensure_track_partial_merge c2store c2payload
    ⟨"33333333-3333-3333-3333-333333333333", "python", "Python", [], .official,
      none, .active⟩ (by decide) (by decide)
  obtain ⟨s', res, h1, h2, h3, h4, h5, h6, _, _, _, h10, _⟩ := h
  exact ⟨rfl, s', res, h1, h2, h3, h4, h5, h6, fun hn => h10 hn⟩

/-! ## C6 -/

/-- C6: ensure-track called twice with the same payload on a fresh slug
reports created = true then created = false, returns the same track row both
times, and the second call leaves the entire store — in particular the stored
Track row — exactly as the first call left it. -/
theorem c6_ensure_track_idempotent
    (s : Store) (p : EnsureTrackPayload)
    (hvp : validEnsurePayload p = true)
    (hnone : getTrackBySlug s (jsToLower p.slug) = none) :
    ∃ s1 r1, ensureTrack s p = (s1, .ok r1) ∧
      r1.created = true ∧
      ensureTrack s1 p = (s1, .ok ⟨false, r1.track⟩) ∧
      getTrackBySlug s1 (jsToLower p.slug) = some r1.track := by
  obtain ⟨pre, t, s1, heq1, hts, ⟨n, htins⟩, htracks, hnomatch, hlook, hown1⟩ :=
    ensureTrack_insert hvp hnone
  refine ⟨s1, ⟨true, t⟩, heq1, rfl, ?_, hlook⟩
  have heq2 := @ensureTrack_spec_pure s1 p hvp hown1
  rw [hlook] at heq2
  have hmerge : mergedTrack t p = t := by
    rw [htins]
    exact mergedTrack_insertedTrack _ _ p
  have hrepl : replaceTrack s1.tracks (jsToLower p.slug) t = s1.tracks := by
    rw [htracks]
    exact replaceTrack_append_self hnomatch
  rw [heq2]
  show ({ s1 with tracks := replaceTrack s1.tracks (jsToLower p.slug) (mergedTrack t p) },
      (.ok ⟨false, mergedTrack t p⟩ : Except ApiError EnsureResult)) =
    (s1, .ok ⟨false, t⟩)
  rw [hmerge, hrepl]

def c6store : Store := ⟨[], [], [], [], [], 0⟩

def c6payload : EnsureTrackPayload :=
  ⟨"Rust", "Rust", some ["https://doc.rust-lang.org/"], some .official, none,
   some .active⟩

/-- C6 witness: two identical ensure-track calls for slug `Rust` on an empty
store — created then not created, identical stored row, unchanged store. -/
theorem c6_witness :
    getTrackBySlug c6store (jsToLower c6payload.slug) = none ∧
    (∃ s1 r1, ensureTrack c6store c6payload = (s1, .ok r1) ∧
      r1.created = true ∧
      ensureTrack s1 c6payload = (s1, .ok ⟨false, r1.track⟩) ∧
      getTrackBySlug s1 (jsToLower c6payload.slug) = some r1.track) :=
  ⟨by decide, c6_ensure_track_idempotent c6store c6payload (by decide) (by decide)⟩

/-! ## C9 -/

def c9store : Store := ⟨[], [], [], [], [], 0⟩

def c9p1 : EnsureTrackPayload := ⟨"python", "Python", none, none, none, none⟩

def c9p2 : EnsureTrackPayload := ⟨" python", "Python", none, none, none, none⟩

/-- C9 counterexample: the code does not trim — an ensure-track call whose
slug is " python" (leading space) after one whose slug is "python" creates a
second, distinct track whose stored slug keeps the whitespace, where the claim
requires both calls to address the same stored Track. -/
theorem c9_counterexample_whitespace_slug :
    (ensureTrack c9store c9p1).2 =
      .ok ⟨true, ⟨genUuid 0, "python", "Python", [], .custom, none, .draft⟩⟩ ∧
    (ensureTrack (ensureTrack c9store c9p1).1 c9p2).2 =
      .ok ⟨true, ⟨genUuid 1, " python", "Python", [], .custom, none, .draft⟩⟩ ∧
    (ensureTrack (ensureTrack c9store c9p1).1 c9p2).1.tracks.length = 2 :=
  ⟨by decide, by decide, by decide⟩

/-- C9 (amended): the slug is normalized by lowercasing only — no whitespace
trimming — before lookup and storage: the stored slug of a fresh track is the
lowercased payload slug, and a second call whose slug differs only in case
addresses the same stored Track (it updates rather than creates, and keeps the
row's id). -/
theorem c9_slug_lowercase_only
    (s : Store) (p q : EnsureTrackPayload)
    (hvp : validEnsurePayload p = true) (hvq : validEnsurePayload q = true)
    (hnone : getTrackBySlug s (jsToLower p.slug) = none)
    (hsame : jsToLower q.slug = jsToLower p.slug) :
    ∃ s1 r1, ensureTrack s p = (s1, .ok r1) ∧ r1.created = true ∧
      r1.track.slug = jsToLower p.slug ∧
      (∃ s2 r2, ensureTrack s1 q = (s2, .ok r2) ∧ r2.created = false ∧
        r2.track.id = r1.track.id ∧ r2.track.slug = r1.track.slug) := by
  obtain ⟨pre, t, s1, heq1, hts, ⟨n, htins⟩, htracks, hnomatch, hlook, hown1⟩ :=
    ensureTrack_insert hvp hnone
  refine ⟨s1, ⟨true, t⟩, heq1, rfl, hts, ?_⟩
  obtain ⟨s1q, htrq, _hlesq, _hprq, _hatq, _hniq, _husq, _hownq, heq2⟩ :=
    @ensureTrack_spec s1 q hvq
  rw [hsame, hlook] at heq2
  exact ⟨_, _, heq2, rfl, rfl, rfl⟩

def c9wStore : Store := ⟨[], [], [], [], [], 0⟩

def c9wp : EnsureTrackPayload := ⟨"PyThOn", "Python", none, none, none, none⟩

def c9wq : EnsureTrackPayload := ⟨"python", "Python", none, none, none, none⟩

/-- C9 witness: slugs `PyThOn` and `python` differ only in case and address
the same stored track, whose stored slug is the lowercased form. -/
theorem c9_witness :
    jsToLower "PyThOn" = "python" ∧
    (∃ s1 r1, ensureTrack c9wStore c9wp = (s1, .ok r1) ∧ r1.created = true ∧
      r1.track.slug = jsToLower c9wp.slug ∧
      (∃ s2 r2, ensureTrack s1 c9wq = (s2, .ok r2) ∧ r2.created = false ∧
        r2.track.id = r1.track.id ∧ r2.track.slug = r1.track.slug)) :=
  ⟨by decide,
   c9_slug_lowercase_only c9wStore c9wp c9wq (by decide) (by decide) (by decide)
     (by decide)⟩

/-! ## C3 -/

theorem seedStep_eq (tid : String) (s : Store) (acc : List LessonSummary)
    (l : SeedLesson) :
    seedStep tid (s, acc) l =
      ((upsertLesson s tid l).1, acc ++ [(upsertLesson s tid l).2]) := rfl

theorem seedFold_length (tid : String) (ls : List SeedLesson) :
    ∀ (s : Store) (acc : List LessonSummary),
      (ls.foldl (seedStep tid) (s, acc)).2.length = acc.length + ls.length := by
  induction ls with
  | nil => intro s acc; simp
  | cons l ls ih =>
      intro s acc
      show (ls.foldl (seedStep tid) (seedStep tid (s, acc) l)).2.length = _
      rw [seedStep_eq, ih]
      simp
      omega

theorem upsertLesson_preserves {s : Store} {tid' : String} {l' : SeedLesson}
    {tid : String} {o : Int}
    (h : ∃ row ∈ s.lessons, row.track_id = tid ∧ row.lesson_order = o) :
    ∃ row ∈ (upsertLesson s tid' l').1.lessons,
      row.track_id = tid ∧ row.lesson_order = o := by
  obtain ⟨row, hmem, h1, h2⟩ := h
  unfold upsertLesson
  cases hf : s.lessons.find?
      (fun x => x.track_id = tid' && x.lesson_order = l'.lesson_order) with
  | some old =>
      simp only
      have himg := List.mem_map_of_mem
        (fun o => if (o.track_id = tid' && o.lesson_order = l'.lesson_order)
          then overwriteLesson l' o else o) hmem
      by_cases hc : (decide (row.track_id = tid')
          && decide (row.lesson_order = l'.lesson_order)) = true
      · refine ⟨overwriteLesson l' row, ?_, h1, h2⟩
        simpa [hc] using himg
      · refine ⟨row, ?_, h1, h2⟩
        simpa [hc] using himg
  | none =>
      simp only
      exact ⟨row, by simp [hmem], h1, h2⟩

theorem upsertLesson_mem (s : Store) (tid : String) (l : SeedLesson) :
    ∃ row ∈ (upsertLesson s tid l).1.lessons,
      row.track_id = tid ∧ row.lesson_order = l.lesson_order := by
  unfold upsertLesson
  cases hf : s.lessons.find?
      (fun x => x.track_id = tid && x.lesson_order = l.lesson_order) with
  | some old =>
      simp only
      have hmem := List.mem_of_find?_eq_some hf
      have hpred := List.find?_some hf
      simp only [Bool.and_eq_true, decide_eq_true_eq] at hpred
      refine ⟨overwriteLesson l old, ?_, hpred.1, hpred.2⟩
      have himg := List.mem_map_of_mem
        (fun o => if (o.track_id = tid && o.lesson_order = l.lesson_order)
          then overwriteLesson l o else o) hmem
      have hc : (decide (old.track_id = tid)
          && decide (old.lesson_order = l.lesson_order)) = true := by
        simp [hpred.1, hpred.2]
      simpa [hc] using himg
  | none =>
      simp only
      exact ⟨⟨genUuid s.nextId, tid, l.lesson_order, l.title, l.objectives, l.tags,
        l.source_urls⟩, by simp, rfl, rfl⟩

theorem seedFold_preserves (tid' : String) (ls : List SeedLesson) {tid : String}
    {o : Int} :
    ∀ (s : Store) (acc : List LessonSummary),
      (∃ row ∈ s.lessons, row.track_id = tid ∧ row.lesson_order = o) →
      ∃ row ∈ (ls.foldl (seedStep tid') (s, acc)).1.lessons,
        row.track_id = tid ∧ row.lesson_order = o := by
  induction ls with
  | nil => intro s acc h; exact h
  | cons l ls ih =>
      intro s acc h
      show ∃ row ∈ (ls.foldl (seedStep tid') (seedStep tid' (s, acc) l)).1.lessons, _
      rw [seedStep_eq]
      exact ih _ _ (upsertLesson_preserves h)

theorem seedFold_mem (tid : String) (ls : List SeedLesson) :
    ∀ (s : Store) (acc : List LessonSummary) (l : SeedLesson), l ∈ ls →
      ∃ row ∈ (ls.foldl (seedStep tid) (s, acc)).1.lessons,
        row.track_id = tid ∧ row.lesson_order = l.lesson_order := by
  induction ls with
  | nil => intro s acc l hl; simp at hl
  | cons l' ls ih =>
      intro s acc l hl
      show ∃ row ∈ (ls.foldl (seedStep tid) (seedStep tid (s, acc) l')).1.lessons, _
      rw [seedStep_eq]
      rcases List.mem_cons.mp hl with heq | hmem
      · subst heq
        exact seedFold_preserves tid ls _ _ (upsertLesson_mem s tid l)
      · exact ih _ _ l hmem

/-- C3: every seed-lessons call is all-or-nothing — any failure (schema
validation, unknown track) leaves the store exactly as it was, and a
successful call reports a count equal to the number of lessons processed and
leaves every listed (track, position) pair present in the lessons table. -/
theorem c3_seed_lessons_atomic (s : Store) (p : SeedPayload) :
    (∀ e, (seedLessons s p).2 = .error e → (seedLessons s p).1 = s) ∧
    (∀ r, (seedLessons s p).2 = .ok r →
      r.inserted_or_updated = p.lessons.length ∧
      ∃ tr, getTrackBySlug s (jsToLower p.track_slug) = some tr ∧
        ∀ l ∈ p.lessons, ∃ row ∈ (seedLessons s p).1.lessons,
          row.track_id = tr.id ∧ row.lesson_order = l.lesson_order) := by
  by_cases hval : validSeedPayload p = true
  · cases htr : getTrackBySlug s (jsToLower p.track_slug) with
    | none =>
        constructor
        · intro e _
          simp [seedLessons, hval, htr]
        · intro r hr
          rw [show (seedLessons s p).2 = .error (.notFound "Track not found") by
            simp [seedLessons, hval, htr]] at hr
          exact absurd hr (by simp)
    | some tr =>
        have h2 : (seedLessons s p).2 =
            .ok ⟨(p.lessons.foldl (seedStep tr.id) (s, [])).2.length,
              (p.lessons.foldl (seedStep tr.id) (s, [])).2⟩ := by
          simp [seedLessons, hval, htr]
        have h1 : (seedLessons s p).1 = (p.lessons.foldl (seedStep tr.id) (s, [])).1 := by
          simp [seedLessons, hval, htr]
        constructor
        · intro e he
          rw [h2] at he
          exact absurd he (by simp)
        · intro r hr
          rw [h2] at hr
          injection hr with hr
          subst hr
          refine ⟨?_, tr, rfl, ?_⟩
          · show (p.lessons.foldl (seedStep tr.id) (s, [])).2.length = p.lessons.length
            rw [seedFold_length]
            simp
          · intro l hl
            rw [h1]
            exact seedFold_mem tr.id p.lessons s [] l hl
  · constructor
    · intro e _
      simp [seedLessons, hval]
    · intro r hr
      rw [show (seedLessons s p).2 = .error .invalidPayload by
        simp [seedLessons, hval]] at hr
      exact absurd hr (by simp)

def c3store : Store :=
  { users := []
  , tracks := [⟨"33333333-3333-3333-3333-333333333333", "python", "Python", [], .custom,
      none, .draft⟩]
  , lessons := []
  , attempts := []
  , progress := []
  , nextId := 0 }

def c3payload : SeedPayload :=
  ⟨"python", [⟨1, "Basics", [], [], []⟩, ⟨2, "Loops", [], [], []⟩]⟩

def c3badPayload : SeedPayload :=
  ⟨"python", [⟨1, "Basics", [], [], []⟩, ⟨0, "Bad order", [], [], []⟩]⟩

/-- C3 witness: the theorem applied to a successful two-lesson seed and to a
seed containing one invalid lesson (non-positive position), which is rejected
with the store unchanged. -/
theorem c3_witness :
    ((seedLessons c3store c3badPayload).2 = .error .invalidPayload ∧
      (seedLessons c3store c3badPayload).1 = c3store) ∧
    ((seedLessons c3store c3payload).2 =
        .ok ⟨2, [⟨genUuid 0, 1, "Basics"⟩, ⟨genUuid 1, 2, "Loops"⟩]⟩ ∧
      ∀ r, (seedLessons c3store c3payload).2 = .ok r →
        r.inserted_or_updated = c3payload.lessons.length) :=
  ⟨⟨by decide,
    (c3_seed_lessons_atomic c3store c3badPayload).1 .invalidPayload (by decide)⟩,
   ⟨by decide,
    fun r hr => ((c3_seed_lessons_atomic c3store c3payload).2 r hr).1⟩⟩

/-! ## C10 -/

/-- C10 (amended): a present but malformed learner identifier makes the
operation fail with no Learner row inserted — but the failure is not the
typed InvalidIdentifier of the spec's taxonomy: `ensureUser`'s user lookup
throws an unhandled invalid-uuid-syntax database error (the path taken by
GET /v1/lessons/next and GET /v1/me), while POST /v1/attempts rejects the
whole payload as a schema error before resolving anyone. -/
theorem c10_malformed_id_fails_no_insert
    (s : Store) (cand : String)
    (hne : ¬ (cand = "")) (hbad : isValidUuid cand = false) :
    ensureUser s (some cand) =
      (s, .error (.unhandledDb "invalid input syntax for type uuid")) ∧
    (∀ p : AttemptPayload, p.user_id = some cand →
      recordAttempt s p = (s, .error .invalidPayload)) := by
  constructor
  · simp [ensureUser, hne, hbad]
  · intro p hp
    have hv : validAttemptPayload p = false := by
      unfold validAttemptPayload
      rw [hp]
      simp [hbad]
    simp [recordAttempt, hv]

def c10store : Store :=
  { users := ["11111111-1111-1111-1111-111111111111"]
  , tracks := [⟨"33333333-3333-3333-3333-333333333333", "python", "Python", [], .custom,
      none, .draft⟩]
  , lessons := []
  , attempts := []
  , progress := []
  , nextId := 0 }

/-- C10 counterexample: for the malformed identifier "not-a-uuid", the code
fails — and inserts no Learner row — but with the unhandled database error, or
a schema-validation 400 on the attempts route, never with the typed
InvalidIdentifier outcome the claim names; GET /v1/lessons/next surfaces the
raw database error. -/
theorem c10_counterexample_db_error_not_typed :
    (ensureUser c10store (some "not-a-uuid")).2 =
      .error (.unhandledDb "invalid input syntax for type uuid") ∧
    (ensureUser c10store (some "not-a-uuid")).2 ≠ .error .invalidIdentifier ∧
    (ensureUser c10store (some "not-a-uuid")).1.users = c10store.users ∧
    (lessonsNext c10store (some "python") (some "not-a-uuid")).2 =
      .error (.unhandledDb "invalid input syntax for type uuid") ∧
    (lessonsNext c10store (some "python") (some "not-a-uuid")).2 ≠
      .error .invalidIdentifier :=
  ⟨by decide, by decide, by decide, by decide, by decide⟩

/-- C10 witness: the amended theorem applied to the malformed identifier
"not-a-uuid" and a concrete store. -/
theorem c10_witness :
    isValidUuid "not-a-uuid" = false ∧
    (ensureUser c10store (some "not-a-uuid") =
      (c10store, .error (.unhandledDb "invalid input syntax for type uuid")) ∧
    (∀ p : AttemptPayload, p.user_id = some "not-a-uuid" →
      recordAttempt c10store p = (c10store, .error .invalidPayload))) :=
  ⟨by decide,
   c10_malformed_id_fails_no_insert c10store "not-a-uuid" (by decide) (by decide)⟩

end LearnAnything
